import Mathlib

/-!
Verification of the byschiitv continuous-broadcast playback scheduler.

This development shallowly embeds the scheduler core of the repository:

* `src/byschiitv/server.go` — the `Server` struct with its playlist, the
  control operations (`Append`, `Insert`, `Remove`, `Clear`, `Next`,
  `Previous`, `SetLoop`, `StartPlayer`, `StopPlayer`, `Current`), the
  `Status` query and `GetDuration`;
* `src/byschiitv/ffpegoptions.go` and `src/unnamed/part_000` — the ffmpeg
  argument builders (`FfmpegCommand`, `FfmpegIdleStreamCommand`,
  `getTextFilter`, `escapeFFmpegText`, `atoiK`) and the quality tables.

Modelling conventions:

* Go strings are embedded as `List Char` (all texts handled by the claims
  are ASCII, so Go's byte length coincides with the character length);
* Go `int` is embedded as `Int` (no arithmetic near overflow occurs in the
  embedded code); Go's `%` on `int` is truncated remainder, i.e. `Int.tmod`;
* a Go run-time panic (out-of-range string slice) is embedded as `none` of
  an `Option` result;
* the external `ffprobe` call is a parameter (`probe`) of the embedding: the
  program cannot determine its result;
* `context.CancelFunc` fields are embedded as `Bool` flags recording whether
  the handle is non-nil; calling a cancel function mutates no `Server` field;
* the single `sync.Mutex` (`Server.mu`) is embedded where it matters
  (`Status`/`GetDuration`): a Go mutex is not reentrant, so a `Lock()` call
  while the same mutex is already held blocks forever; a blocked call is
  embedded as `none`.
-/

/-- Converts a Lean string literal to the `List Char` embedding of Go strings. -/
def goStr (s : String) : List Char :=
  s.toList

/-- Single-quote character (code 39), kept out of string literals. -/
def sqChar : Char :=
  Char.ofNat 39

/-- Backslash character (code 92). -/
def bslChar : Char :=
  Char.ofNat 92

/-- PlaylistElement (src/byschiitv/server.go lines 12-42): a closed variant
over the two implementations `VideoElement {Path, HiQuality}` and
`IdleElement {IdleSeconds, Description}`. -/
inductive PlaylistElement
  | video (path : List Char) (hiQuality : Bool)
  | idle (idleSeconds : Int) (description : List Char)
  deriving DecidableEq

/-- Server (src/byschiitv/server.go lines 45-55): the scheduler state guarded
by `Server.mu`. `playerCancelSet` and `currentCancelSet` record whether the
corresponding `context.CancelFunc` is non-nil. -/
structure ServerState where
  playlist : List PlaylistElement
  currentlyPlaying : Int
  loop : Bool
  playerRunning : Bool
  playerCancelSet : Bool
  currentCancelSet : Bool
  deriving DecidableEq

/-- NewServer (server.go lines 67-71): zero value with `loop = true`. -/
def newServer : ServerState :=
  { playlist := [], currentlyPlaying := 0, loop := true,
    playerRunning := false, playerCancelSet := false, currentCancelSet := false }

/-- Server.Append (server.go lines 73-79): wraps the string in a
`VideoElement{Path: item, HiQuality: false}`, appends it and returns the new
length. -/
def appendItem (s : ServerState) (item : List Char) : Nat × ServerState :=
  let pl := s.playlist ++ [PlaylistElement.video item false]
  (pl.length, { s with playlist := pl })

/-- Server.Remove (server.go lines 103-112): bounds-checked removal; returns
the removed item. `currentlyPlaying` is not adjusted. -/
def removeItem (s : ServerState) (index : Int) : Option PlaylistElement × ServerState :=
  if index < 0 ∨ (s.playlist.length : Int) ≤ index then (none, s)
  else (s.playlist.get? index.toNat, { s with playlist := s.playlist.eraseIdx index.toNat })

/-- Server.Clear (server.go lines 122-126): `s.playlist = nil`. -/
def clearItems (s : ServerState) : ServerState :=
  { s with playlist := [] }

/-- Server.Current (server.go lines 128-135): bounds-checked read of the
current element. -/
def currentItem (s : ServerState) : Option PlaylistElement :=
  if s.currentlyPlaying < 0 ∨ (s.playlist.length : Int) ≤ s.currentlyPlaying then none
  else s.playlist.get? s.currentlyPlaying.toNat

/-- Server.Insert (server.go lines 137-145): fails when `index < 0` or
`index > len(playlist)`, otherwise inserts at `index`. -/
def insertItem (s : ServerState) (index : Int) (element : PlaylistElement) :
    Bool × ServerState :=
  if index < 0 ∨ (s.playlist.length : Int) < index then (false, s)
  else (true, { s with playlist := s.playlist.insertIdx index.toNat element })

/-- Server.Next (server.go lines 168-184): returns false when the player is
not running or `currentlyPlaying+1 >= len(playlist)`; otherwise advances,
wrapping with `%` when `loop` is set. Calling `currentCancel()` mutates no
`Server` field. -/
def nextS (s : ServerState) : Bool × ServerState :=
  if s.playerRunning = false ∨ (s.playlist.length : Int) ≤ s.currentlyPlaying + 1 then
    (false, s)
  else
    let cur := if s.loop then (s.currentlyPlaying + 1).tmod (s.playlist.length : Int)
               else s.currentlyPlaying + 1
    (true, { s with currentlyPlaying := cur })

/-- Server.Previous (server.go lines 186-202): returns false when the player
is not running or `currentlyPlaying-1 < 0`; otherwise moves back, wrapping
with `%` when `loop` is set. -/
def prevS (s : ServerState) : Bool × ServerState :=
  if s.playerRunning = false ∨ s.currentlyPlaying - 1 < 0 then
    (false, s)
  else
    let cur := if s.loop then
                 (s.currentlyPlaying - 1 + (s.playlist.length : Int)).tmod (s.playlist.length : Int)
               else s.currentlyPlaying - 1
    (true, { s with currentlyPlaying := cur })

/-- Server.SetLoop (server.go lines 204-208). -/
def setLoop (s : ServerState) (loop : Bool) : ServerState :=
  { s with loop := loop }

/-- Server.StartPlayer (server.go lines 216-231): no-op returning false when
already running; otherwise installs the run-level cancel handle, marks
running and resets `currentlyPlaying` to 0. -/
def startPlayer (s : ServerState) : Bool × ServerState :=
  if s.playerRunning then (false, s)
  else (true, { s with playerCancelSet := true, playerRunning := true, currentlyPlaying := 0 })

/-- Server.StopPlayer (server.go lines 310-322): returns false when not
running or the run-level handle is nil; otherwise fires the cancel handles,
which mutate no `Server` field (the worker goroutine clears the flags later). -/
def stopPlayer (s : ServerState) : Bool × ServerState :=
  if s.playerRunning = false ∨ s.playerCancelSet = false then (false, s)
  else (true, s)

/-- Concrete video element used by closed evaluation theorems. -/
def elA : PlaylistElement :=
  .video (goStr "a.mp4") false

/-- Second concrete video element used by closed evaluation theorems. -/
def elB : PlaylistElement :=
  .video (goStr "b.mp4") false

/-- Running scheduler at the last index of a two-element playlist with
`loop = true` — the failing input of claim C1. -/
def c1runLast : ServerState :=
  { playlist := [elA, elB], currentlyPlaying := 1, loop := true,
    playerRunning := true, playerCancelSet := true, currentCancelSet := false }

/-- Same scheduler at index 0, the failing input for `Previous`. -/
def c1runFirst : ServerState :=
  { c1runLast with currentlyPlaying := 0 }

/-- Index invariant of the spec (section 3): whenever the playlist is
non-empty and the scheduler has been started, `0 <= currentIndex <
len(playlist)`. -/
def serverInv (s : ServerState) : Prop :=
  s.playlist ≠ [] → s.playerRunning = true →
    0 ≤ s.currentlyPlaying ∧ s.currentlyPlaying < (s.playlist.length : Int)

instance (s : ServerState) : Decidable (serverInv s) := by
  unfold serverInv
  infer_instance

/-- Scheduler reached by starting the player on the playlist `[elA, elB]` and
calling `Next` once: running, two elements, `currentlyPlaying = 1`. -/
def c2beforeRemove : ServerState :=
  (nextS (startPlayer { newServer with playlist := [elA, elB] }).2).2

/-- Error outcomes of `Server.GetDuration` (server.go lines 233-260). Go
errors are opaque wrapped values; the embedding keeps their identity. -/
inductive DurError
  | indexOutOfBounds (index : Int) (length : Nat)
  | ffprobeError (path : List Char)
  deriving DecidableEq

/-- Server.GetDuration (server.go lines 235-260), with the external
`ffprobe` invocation (`GetVideoDuration`) abstracted as the `probe`
parameter. Durations are `Int` nanoseconds (`time.Duration`); an
`IdleElement` yields `time.Duration(IdleSeconds) * time.Second`. The bounds
check makes the `none` lookup branch unreachable; it mirrors Go's `default`
case, which can also never fire for the closed element type. -/
def getDuration (probe : List Char → Except Unit Int) (pl : List PlaylistElement)
    (index : Int) : Except DurError Int :=
  if index < 0 ∨ (pl.length : Int) ≤ index then
    .error (.indexOutOfBounds index pl.length)
  else
    match pl.get? index.toNat with
    | some (.idle secs _) => .ok (secs * 1000000000)
    | some (.video path _) =>
        match probe path with
        | .ok d => .ok d
        | .error _ => .error (.ffprobeError path)
    | none => .error (.indexOutOfBounds index pl.length)

/-- Entry point of `Server.GetDuration`: the method starts with
`s.mu.Lock()`. A `sync.Mutex` is not reentrant, so when the caller already
holds `s.mu` the call blocks forever (`none`); otherwise the body runs (the
mutex is released again on every path before the method returns). -/
def getDurationLocked (muHeld : Bool) (probe : List Char → Except Unit Int)
    (pl : List PlaylistElement) (index : Int) : Option (Except DurError Int) :=
  if muHeld then none else some (getDuration probe pl index)

/-- PlayerStatus (server.go lines 57-65). `ProgrammedHours` is a `float32`
derived as `seconds / 3600`; floating point is not modelled, and the field
carries no extra information. `programmedSeconds` accumulates
`int(dur.Seconds())`, embedded as nanoseconds divided by `10^9` (exact for
the whole-second durations occurring here). -/
structure PlayerStatus where
  running : Bool
  playing : Bool
  currentIdx : Int
  loop : Bool
  length : Nat
  programmedSeconds : Int
  deriving DecidableEq

/-- One iteration of the duration loop in `Server.Status` (server.go lines
85-90): calls `s.GetDuration(i)` while `Status` still holds `s.mu`, adds the
seconds on success and skips the item on error. -/
def statusStep (probe : List Char → Except Unit Int) (pl : List PlaylistElement)
    (acc : Option Int) (i : Nat) : Option Int :=
  acc.bind fun d =>
    (getDurationLocked true probe pl (i : Int)).map fun r =>
      match r with
      | .ok ns => d + ns / 1000000000
      | .error _ => d

/-- The duration loop of `Server.Status` over all playlist indices. -/
def statusSum (probe : List Char → Except Unit Int) (pl : List PlaylistElement) :
    Option Int :=
  (List.range pl.length).foldl (statusStep probe pl) (some 0)

/-- Server.Status (server.go lines 81-101): acquires `s.mu` (the caller does
not hold it), runs the duration loop while holding it, and assembles the
status record. A `none` result models an execution that never returns. -/
def statusQuery (probe : List Char → Except Unit Int) (s : ServerState) :
    Option PlayerStatus :=
  (statusSum probe s.playlist).map fun d =>
    { running := s.playerRunning,
      playing := s.playerRunning && s.currentCancelSet,
      currentIdx := s.currentlyPlaying,
      loop := s.loop,
      length := s.playlist.length,
      programmedSeconds := d }

/-- Probe stub used by closed witnesses: fails on every path. -/
def probeFail : List Char → Except Unit Int :=
  fun _ => .error ()

/-- strconv.Itoa on the Go int embedding (decimal, with leading minus). -/
def itoa (n : Int) : List Char :=
  if n < 0 then '-' :: Nat.toDigits 10 n.natAbs else Nat.toDigits 10 n.toNat

/-- Characters replaced by `escapeFFmpegText` (ffpegoptions.go lines
233-244): colon, single quote, square brackets, comma, backslash. -/
def isFfmpegSpecial (c : Char) : Bool :=
  c == ':' || c == sqChar || c == '[' || c == ']' || c == ',' || c == bslChar

/-- escapeFFmpegText (ffpegoptions.go lines 233-244): the
`strings.NewReplacer` makes a single left-to-right pass; every pattern is a
single character, replaced by a backslash followed by the character. -/
def escapeFFmpegText : List Char → List Char
  | [] => []
  | c :: rest => (if isFfmpegSpecial c then [bslChar, c] else [c]) ++ escapeFFmpegText rest

/-- A text is well escaped when every occurrence of a filter control
character in it is consumed as a backslash-prefixed pair. -/
def wellEscaped : List Char → Bool
  | [] => true
  | [c] => !isFfmpegSpecial c
  | c1 :: c2 :: rest =>
      if c1 = bslChar then isFfmpegSpecial c2 && wellEscaped rest
      else !isFfmpegSpecial c1 && wellEscaped (c2 :: rest)

/-- Containment of a contiguous segment in a list. -/
def containsSeg {α : Type} (m l : List α) : Prop :=
  ∃ s t, l = s ++ m ++ t

/-- Literal prefix of the drawtext banner filter: `drawtext=text='`. -/
def tfPre : List Char :=
  goStr "drawtext=text=" ++ [sqChar]

/-- Literal tail of the banner filter (ffpegoptions.go lines 118-125) with
the constants interval=25, duration=10, scrollDistance=1.8 already formatted
by `fmt.Sprintf`. -/
def tfPost : List Char :=
  [sqChar] ++ goStr ":fontsize=24:fontcolor=white:x=w-(mod(t\\,25)*w*1.8/10):y=h-50:enable="
    ++ [sqChar] ++ goStr "lt(mod(t\\,25),10)" ++ [sqChar]

/-- Padding step of `getTextFilter`: pad with spaces up to 150 characters. -/
def padTo150 (d : List Char) : List Char :=
  if d.length < 150 then d ++ List.replicate (150 - d.length) ' ' else d

/-- getTextFilter (ffpegoptions.go lines 105-126 and src/unnamed/part_000
lines 156-177, identical): slices `description[10:]` — which panics in Go
when the string is shorter than 10 bytes, embedded as `none` — pads to 150
characters and splices the text into the drawtext template without any
escaping. -/
def getTextFilter (description : List Char) : Option (List Char) :=
  if description.length < 10 then none
  else some (tfPre ++ padTo150 (description.drop 10) ++ tfPost)

/-- Follows the spec's words (section 4.4): same banner builder, but the
free-form text is escaped for the filter control characters before being
embedded. Used only to compare the source's `getTextFilter` against the
claimed behaviour. -/
def getTextFilterSpec (description : List Char) : Option (List Char) :=
  if description.length < 10 then none
  else some (tfPre ++ escapeFFmpegText (padTo150 (description.drop 10)) ++ tfPost)

/-- Shared prefix `drawtext=text='` of both description filter branches. -/
def descPre : List Char :=
  goStr "drawtext=text=" ++ [sqChar]

/-- Tail of the static (centered) description filter
(ffpegoptions.go lines 170-175). -/
def descPostStatic : List Char :=
  [sqChar] ++ goStr ":fontsize=22:fontcolor=#cccccc:x=(w-text_w)/2:y=h/2+60:box=1:boxcolor=black@0.4:boxborderw=5"

/-- Tail of the scrolling (ticker) description filter
(ffpegoptions.go lines 179-184). -/
def descPostScroll : List Char :=
  [sqChar] ++ goStr ":fontsize=22:fontcolor=#cccccc:x=w-mod(t*80\\,w+tw):y=h/2+60:box=1:boxcolor=black@0.4:boxborderw=5"

/-- Description block of FfmpegIdleStreamCommand (ffpegoptions.go lines
162-185): static centered drawtext for descriptions of length at most 80,
scrolling ticker above 80; the description is escaped in both branches. -/
def idleDescFilter (description : List Char) : List Char :=
  if description.length ≤ 80 then descPre ++ escapeFFmpegText description ++ descPostStatic
  else descPre ++ escapeFFmpegText description ++ descPostScroll

/-- Head of the idle-slate video filter (ffpegoptions.go lines 187-198):
color source, pulsing INTERMISSION label, COMING UP NEXT caption, up to the
embedded next-movie title. -/
def idleHeader : List Char :=
  goStr "color=size=1280x720:rate=15:color=#0f0f1e,drawtext=text=" ++ [sqChar]
    ++ goStr " [||] INTERMISSION" ++ [sqChar]
    ++ goStr ":fontsize=42:fontcolor=#ff6b6b:x=(w-text_w)/2:y=80:box=1:boxcolor=black@0.6:boxborderw=10:alpha="
    ++ [sqChar] ++ goStr "0.85+0.15*sin(t)" ++ [sqChar]
    ++ goStr ",drawtext=text=" ++ [sqChar] ++ goStr "COMING UP NEXT" ++ [sqChar]
    ++ goStr ":fontsize=28:fontcolor=#00d4ff:x=(w-text_w)/2:y=h/2-120,drawtext=text=" ++ [sqChar]

/-- Segment between the embedded next-movie title and the description block. -/
def idleMid : List Char :=
  [sqChar] ++ goStr ":fontsize=46:fontcolor=white:x=(w-text_w)/2:y=h/2-70:box=1:boxcolor=black@0.5:boxborderw=8,"

/-- Segment between the description block and the formatted countdown value
(the countdown uses an ffmpeg eif expression; braces are literal text). -/
def idleTail1 : List Char :=
  goStr ",drawtext=text=" ++ [sqChar] ++ goStr "Starting in\\: %\x7beif\\:"

/-- Segment after the countdown value up to the end of the filter. -/
def idleTail2 : List Char :=
  goStr "-t\\:d\x7d seconds" ++ [sqChar]
    ++ goStr ":fontsize=36:fontcolor=#4ecdc4:x=(w-text_w)/2:y=h-120:box=1:boxcolor=black@0.5:boxborderw=6"

/-- Complete idle-slate video filter (ffpegoptions.go lines 187-214): the
`fmt.Sprintf` splices the escaped next-movie title, the description block
and `%.0f` of `secondsUntilStart` (an exact integer, formatted like Itoa)
into the template. -/
def idleVideoFilter (nextMovie description : List Char) (secondsUntilStart : Int) : List Char :=
  idleHeader ++ escapeFFmpegText nextMovie ++ idleMid ++ idleDescFilter description
    ++ idleTail1 ++ itoa secondsUntilStart ++ idleTail2

/-- FfmpegIdleStreamCommand (ffpegoptions.go lines 158-230):
`currentTime := time.Now().Unix()` is the `now` parameter. -/
def ffmpegIdleStreamCommand (rtmpURL : List Char) (durationSeconds : Int)
    (nextMovie description : List Char) (startTimeUnix now : Int) : List (List Char) :=
  let secondsUntilStart := startTimeUnix - now
  [goStr "-f", goStr "lavfi",
   goStr "-t", itoa durationSeconds,
   goStr "-i", idleVideoFilter nextMovie description secondsUntilStart,
   goStr "-f", goStr "lavfi",
   goStr "-t", itoa durationSeconds,
   goStr "-i", goStr "anullsrc=channel_layout=stereo:sample_rate=44100",
   goStr "-c:v", goStr "h264_v4l2m2m",
   goStr "-b:v", goStr "500k",
   goStr "-c:a", goStr "aac",
   goStr "-b:a", goStr "64k",
   goStr "-f", goStr "flv",
   rtmpURL]

/-- Position marker occurring only in the static description branch. -/
def staticPosMarker : List Char :=
  goStr "x=(w-text_w)/2:y=h/2+60"

/-- Position marker occurring only in the scrolling description branch. -/
def scrollPosMarker : List Char :=
  goStr "x=w-mod(t*80\\,w+tw):y=h/2+60"

/-- Q (src/unnamed/part_000 lines 15-21): a quality tier. -/
structure Q where
  width : Int
  height : Int
  fps : Int
  vBitrate : List Char
  aBitrate : List Char
  deriving DecidableEq

/-- Qualities169 (part_000 lines 23-41): 16:9 tiers, highest first. -/
def Qualities169 : List Q :=
  [{ width := 1920, height := 1080, fps := 60, vBitrate := goStr "10000k", aBitrate := goStr "128k" },
   { width := 1920, height := 1080, fps := 30, vBitrate := goStr "8000k", aBitrate := goStr "128k" },
   { width := 1280, height := 720, fps := 60, vBitrate := goStr "6000k", aBitrate := goStr "128k" },
   { width := 1280, height := 720, fps := 30, vBitrate := goStr "3500k", aBitrate := goStr "128k" },
   { width := 854, height := 480, fps := 30, vBitrate := goStr "1200k", aBitrate := goStr "96k" },
   { width := 640, height := 360, fps := 30, vBitrate := goStr "700k", aBitrate := goStr "64k" }]

/-- Qualities43 (part_000 lines 43-47): 4:3 tiers, highest first. -/
def Qualities43 : List Q :=
  [{ width := 960, height := 720, fps := 30, vBitrate := goStr "2000k", aBitrate := goStr "128k" },
   { width := 640, height := 480, fps := 23, vBitrate := goStr "1000k", aBitrate := goStr "96k" },
   { width := 480, height := 360, fps := 15, vBitrate := goStr "600k", aBitrate := goStr "64k" }]

/-- Whitespace predicate for `strings.TrimSpace` (the bitrate inputs are
ASCII, so the ASCII subset of `unicode.IsSpace` suffices). -/
def isGoSpace (c : Char) : Bool :=
  c == ' ' || c == '\t' || c == '\n' || c == '\r'

/-- strings.TrimSpace on the embedding. -/
def trimSpace (s : List Char) : List Char :=
  ((s.dropWhile isGoSpace).reverse.dropWhile isGoSpace).reverse

/-- Decimal digit value. -/
def digitVal (c : Char) : Option Nat :=
  if '0' ≤ c ∧ c ≤ '9' then some (c.toNat - '0'.toNat) else none

/-- Digit-string parser: all characters must be digits and at least one must
be present. -/
def parseDigits (s : List Char) : Option Nat :=
  match s with
  | [] => none
  | _ => s.foldl (fun acc c => acc.bind fun a => (digitVal c).map fun d => a * 10 + d) (some 0)

/-- strconv.Atoi: optional sign followed by digits; `none` on any other
shape (overflow, which Atoi also rejects, cannot occur on the inputs here). -/
def goAtoi (s : List Char) : Option Int :=
  match s with
  | '+' :: rest => (parseDigits rest).map fun n => (n : Int)
  | '-' :: rest => (parseDigits rest).map fun n => -(n : Int)
  | _ => (parseDigits s).map fun n => (n : Int)

/-- atoiK (part_000 lines 145-154): lowercases, trims space, strips a
trailing `k` and parses; returns 0 on a parse error. -/
def atoiK (s : List Char) : Int :=
  let s1 := trimSpace (s.map Char.toLower)
  let s2 := match s1.reverse with
            | 'k' :: r => r.reverse
            | _ => s1
  match goAtoi s2 with
  | some n => n
  | none => 0

/-- Quality clamp of FfmpegCommand (part_000 lines 54-72): indices below 0
go to 0, indices at or past the table length go to the last entry. -/
def clampQuality (len : Nat) (quality : Int) : Int :=
  let q1 := if quality < 0 then 0 else quality
  if (len : Int) ≤ q1 then (len : Int) - 1 else q1

/-- Tier selection of FfmpegCommand (part_000 lines 54-72): clamp the index
into the table for the aspect-ratio class (`ciccione` = legacy 4:3) and read
the entry. -/
def ffmpegPickQuality (ciccione : Bool) (quality : Int) : Q :=
  if ciccione then
    Qualities43.get ⟨(clampQuality Qualities43.length quality).toNat, by
      have h3 : Qualities43.length = 3 := rfl
      rw [h3]
      simp only [clampQuality]
      split_ifs <;> omega⟩
  else
    Qualities169.get ⟨(clampQuality Qualities169.length quality).toNat, by
      have h6 : Qualities169.length = 6 := rfl
      rw [h6]
      simp only [clampQuality]
      split_ifs <;> omega⟩

/-- Constant of FfmpegCommand (part_000 line 83). -/
def usingRaspberryPi : Bool :=
  true

/-- Encoder decision (part_000 lines 84-89): software exactly when
`q.Width >= 1920 && q.FPS > 30` (or when not on the Pi, which the constant
rules out). -/
def ffmpegUseSoftware (q : Q) : Bool :=
  (decide (1920 ≤ q.width) && decide (30 < q.fps)) || !usingRaspberryPi

/-- Encoder name chosen by FfmpegCommand (part_000 lines 86-119). -/
def ffmpegEncoder (q : Q) : List Char :=
  if ffmpegUseSoftware q then goStr "libx264" else goStr "h264_v4l2m2m"

/-- Extra encoder arguments of FfmpegCommand (part_000 lines 89-119):
`gop := q.FPS * 2` and `bufk := 2 * atoiK(q.VBitrate)` on both paths; the
software path adds preset/tune/profile/level/keyint/sc_threshold/threads. -/
def ffmpegExtra (q : Q) : List (List Char) :=
  if ffmpegUseSoftware q then
    [goStr "-preset", goStr "veryfast",
     goStr "-tune", goStr "zerolatency",
     goStr "-profile:v", goStr "high",
     goStr "-level:v", goStr "4.2",
     goStr "-g", itoa (q.fps * 2),
     goStr "-keyint_min", itoa (q.fps * 2),
     goStr "-sc_threshold", goStr "0",
     goStr "-maxrate", q.vBitrate,
     goStr "-bufsize", itoa (2 * atoiK q.vBitrate) ++ goStr "k",
     goStr "-threads", goStr "0"]
  else
    [goStr "-g", itoa (q.fps * 2),
     goStr "-maxrate", q.vBitrate,
     goStr "-bufsize", itoa (2 * atoiK q.vBitrate) ++ goStr "k"]

/-- FfmpegCommand (part_000 lines 53-143): clamped tier selection, filter
chain (with the optional banner from `getTextFilter`, whose slice panic
propagates as `none`), encoder decision and argument assembly. The
`fmt.Printf` logging side effect is ignored. -/
def FfmpegCommand (videoPath rtmpURL : List Char) (ciccione : Bool) (quality : Int)
    (textBanner : Bool) : Option (List (List Char)) :=
  let q := ffmpegPickQuality ciccione quality
  let scaleStr := goStr "scale=" ++ itoa q.width ++ goStr ":" ++ itoa q.height
    ++ goStr ",fps=" ++ itoa q.fps ++ goStr ",format=yuv420p"
  let vFilterO := if textBanner then
      (getTextFilter videoPath).map fun tf => scaleStr ++ goStr "," ++ tf
    else some scaleStr
  vFilterO.map fun vFilter =>
    [goStr "-re", goStr "-i", videoPath, goStr "-vf", vFilter,
     goStr "-pix_fmt", goStr "yuv420p", goStr "-c:v", ffmpegEncoder q]
      ++ ffmpegExtra q
      ++ [goStr "-b:v", q.vBitrate, goStr "-c:a", goStr "aac", goStr "-b:a", q.aBitrate,
          goStr "-ar", goStr "48000", goStr "-ac", goStr "2", goStr "-f", goStr "flv",
          rtmpURL]

/-- C1: the claim says that with `loop = true` repeated `next()` wraps modulo
the playlist length and never returns false. The code violates this: the
guard `currentlyPlaying+1 >= len(playlist)` in `Server.Next` fires before the
loop branch is consulted, so at the last index `Next` returns false and
leaves the state unchanged even though `loop` is true (and symmetrically
`Previous` at index 0); the modulo wrap in the `s.loop` branch is
unreachable. Evaluated here on a running two-element playlist. -/
theorem next_returns_false_at_last_index_despite_loop :
    c1runLast.loop = true ∧ c1runLast.playerRunning = true ∧
    c1runLast.currentlyPlaying = (c1runLast.playlist.length : Int) - 1 ∧
    nextS c1runLast = (false, c1runLast) ∧
    prevS c1runFirst = (false, c1runFirst) := by
  decide

/-- C4: with `loop = false`, `next()` at the last valid index returns false
and leaves the whole scheduler state unchanged. -/
theorem next_at_last_index_no_loop_fails_unchanged (s : ServerState)
    (_hrun : s.playerRunning = true) (_hloop : s.loop = false)
    (hne : s.playlist ≠ [])
    (hlast : s.currentlyPlaying = (s.playlist.length : Int) - 1) :
    nextS s = (false, s) := by
  have hlen : 0 < s.playlist.length := List.length_pos.mpr hne
  unfold nextS
  rw [if_pos]
  right
  omega

/-- Witness for C4: a running one-element playlist with `loop = false` at
index 0 (its last valid index). -/
theorem next_at_last_index_no_loop_fails_unchanged_witness :
    nextS { playlist := [elA], currentlyPlaying := 0, loop := false,
            playerRunning := true, playerCancelSet := true, currentCancelSet := false }
      = (false, { playlist := [elA], currentlyPlaying := 0, loop := false,
                  playerRunning := true, playerCancelSet := true, currentCancelSet := false }) :=
  next_at_last_index_no_loop_fails_unchanged _ (by decide) (by decide) (by decide) (by decide)

/-- Counterexample to C2: the reachable running state `c2beforeRemove`
satisfies the invariant, but `Remove(0)` leaves `currentlyPlaying = 1` on the
one-element remainder, violating `currentIndex < len(playlist)` while the
playlist is non-empty and the scheduler is running. -/
theorem remove_breaks_index_invariant :
    serverInv c2beforeRemove ∧
    (removeItem c2beforeRemove 0).2.playlist ≠ [] ∧
    (removeItem c2beforeRemove 0).2.playerRunning = true ∧
    ¬ (removeItem c2beforeRemove 0).2.currentlyPlaying
        < ((removeItem c2beforeRemove 0).2.playlist.length : Int) := by
  decide

/-- Truncated remainder of a value already inside `[0, b)` is the value. -/
theorem tmod_eq_of_nonneg_lt {a b : Int} (h0 : 0 ≤ a) (h1 : a < b) : a.tmod b = a := by
  rw [Int.tmod_eq_emod h0 (by omega)]
  exact Int.emod_eq_of_lt h0 h1

/-- Truncated remainder after adding one full modulus wraps back. -/
theorem tmod_add_right_eq {a b : Int} (h0 : 0 ≤ a) (h1 : a < b) : (a + b).tmod b = a := by
  rw [Int.tmod_eq_emod (by omega) (by omega), Int.add_emod_self]
  exact Int.emod_eq_of_lt h0 h1

/-- C2 (amended): starting from a non-empty running state satisfying the
bounds, every control operation except `Remove` preserves the invariant;
`Remove` only guarantees the weaker `0 <= currentIndex <= len(playlist)`,
since it never adjusts `currentlyPlaying` (see
`remove_breaks_index_invariant`). -/
theorem control_ops_preserve_index_invariant (s : ServerState)
    (hne : s.playlist ≠ []) (hrun : s.playerRunning = true)
    (h0 : 0 ≤ s.currentlyPlaying) (h1 : s.currentlyPlaying < (s.playlist.length : Int))
    (item : List Char) (index : Int) (element : PlaylistElement) (b : Bool) :
    serverInv (appendItem s item).2 ∧
    serverInv (insertItem s index element).2 ∧
    serverInv (clearItems s) ∧
    serverInv (nextS s).2 ∧
    serverInv (prevS s).2 ∧
    serverInv (setLoop s b) ∧
    serverInv (startPlayer s).2 ∧
    serverInv (stopPlayer s).2 ∧
    (0 ≤ (removeItem s index).2.currentlyPlaying ∧
      (removeItem s index).2.currentlyPlaying ≤ ((removeItem s index).2.playlist.length : Int)) := by
  have hlen : 0 < s.playlist.length := List.length_pos.mpr hne
  refine ⟨?_, ?_, ?_, ?_, ?_, ?_, ?_, ?_, ?_⟩
  · intro _ _
    simp only [appendItem, List.length_append, List.length_cons, List.length_nil]
    constructor
    · exact h0
    · push_cast
      omega
  · unfold insertItem
    split
    · exact fun _ _ => ⟨h0, h1⟩
    · intro _ _
      rename_i hguard
      have hle : index.toNat ≤ s.playlist.length := by omega
      simp only [List.length_insertIdx, hle, if_true]
      push_cast
      omega
  · intro hcontra _
    exact absurd rfl hcontra
  · unfold nextS
    split
    · exact fun _ _ => ⟨h0, h1⟩
    · rename_i hguard
      intro _ _
      simp only
      split
      · rw [tmod_eq_of_nonneg_lt (by omega) (by omega)]
        constructor <;> omega
      · constructor <;> omega
  · unfold prevS
    split
    · exact fun _ _ => ⟨h0, h1⟩
    · rename_i hguard
      intro _ _
      simp only
      split
      · rw [tmod_add_right_eq (a := s.currentlyPlaying - 1) (by omega) (by omega)]
        constructor <;> omega
      · constructor <;> omega
  · exact fun _ _ => ⟨h0, h1⟩
  · unfold startPlayer
    split <;> exact fun _ _ => ⟨h0, h1⟩
  · unfold stopPlayer
    split
    · exact fun _ _ => ⟨h0, h1⟩
    · exact fun _ _ => ⟨h0, h1⟩
  · unfold removeItem
    split
    · show 0 ≤ s.currentlyPlaying ∧ s.currentlyPlaying ≤ (s.playlist.length : Int)
      exact ⟨h0, by omega⟩
    · rename_i hguard
      have hidx : index.toNat < s.playlist.length := by omega
      simp only [List.length_eraseIdx_of_lt hidx]
      constructor
      · exact h0
      · omega

/-- Witness for the amended C2 on the concrete reachable state
`c2beforeRemove` with concrete operation arguments. -/
theorem control_ops_preserve_index_invariant_witness :
    serverInv (appendItem c2beforeRemove (goStr "c.mp4")).2 ∧
    serverInv (insertItem c2beforeRemove 1 elA).2 ∧
    serverInv (clearItems c2beforeRemove) ∧
    serverInv (nextS c2beforeRemove).2 ∧
    serverInv (prevS c2beforeRemove).2 ∧
    serverInv (setLoop c2beforeRemove false) ∧
    serverInv (startPlayer c2beforeRemove).2 ∧
    serverInv (stopPlayer c2beforeRemove).2 ∧
    (0 ≤ (removeItem c2beforeRemove 1).2.currentlyPlaying ∧
      (removeItem c2beforeRemove 1).2.currentlyPlaying
        ≤ ((removeItem c2beforeRemove 1).2.playlist.length : Int)) :=
  control_ops_preserve_index_invariant c2beforeRemove (by decide) (by decide)
    (by decide) (by decide) (goStr "c.mp4") 1 elA false

/-- A blocked accumulator never recovers: the loop body starts from `acc`. -/
theorem foldl_statusStep_none (probe : List Char → Except Unit Int)
    (pl : List PlaylistElement) (l : List Nat) :
    l.foldl (statusStep probe pl) none = none := by
  induction l with
  | nil => rfl
  | cons x xs ih => simpa [statusStep] using ih

/-- C3: `Status()` takes `s.mu` and, still holding it, calls `GetDuration`
for every playlist index; `GetDuration` begins by taking the same
non-reentrant `s.mu`, so the very first iteration blocks forever. Hence for
every scheduler state with a non-empty playlist the status query never
returns, whatever the external probe would answer. -/
theorem status_deadlocks_on_nonempty_playlist
    (probe : List Char → Except Unit Int) (s : ServerState)
    (hne : s.playlist ≠ []) :
    statusQuery probe s = none := by
  obtain ⟨x, xs, hx⟩ := List.exists_cons_of_ne_nil hne
  unfold statusQuery statusSum
  rw [hx]
  simp only [List.length_cons, List.range_succ_eq_map, List.foldl_cons]
  have h1 : statusStep probe (x :: xs) (some 0) 0 = none := rfl
  rw [h1, foldl_statusStep_none]
  rfl

/-- Witness for C3: on a running one-element playlist the status query
deadlocks. -/
theorem status_deadlocks_on_nonempty_playlist_witness :
    statusQuery probeFail c1runLast = none :=
  status_deadlocks_on_nonempty_playlist probeFail c1runLast (by decide)

/-- C9: for a valid index holding an `IdleElement`, `GetDuration` returns
`time.Duration(IdleSeconds) * time.Second` directly — the result is the same
for every external probe, so the probe is never consulted — and for every
index outside `[0, len)` it fails with the explicit out-of-bounds error. -/
theorem getDuration_idle_direct_and_bounds
    (probe probe2 : List Char → Except Unit Int)
    (pl : List PlaylistElement) (index : Int) :
    (∀ secs desc, 0 ≤ index →
        pl.get? index.toNat = some (.idle secs desc) →
        getDuration probe pl index = .ok (secs * 1000000000) ∧
          getDuration probe pl index = getDuration probe2 pl index) ∧
    ((index < 0 ∨ (pl.length : Int) ≤ index) →
        getDuration probe pl index = .error (.indexOutOfBounds index pl.length)) := by
  constructor
  · intro secs desc hnn hget
    have hlt : index.toNat < pl.length := (List.get?_eq_some.mp hget).1
    have hguard : ¬ (index < 0 ∨ (pl.length : Int) ≤ index) := by omega
    constructor
    · unfold getDuration
      rw [if_neg hguard, hget]
    · unfold getDuration
      rw [if_neg hguard, hget, if_neg hguard]
  · intro hguard
    unfold getDuration
    rw [if_pos hguard]

/-- Witness for C9: an idle element of 7 seconds at index 0 yields exactly
7 seconds (in nanoseconds) under the always-failing probe, and index 5 of the
one-element playlist is rejected. -/
theorem getDuration_idle_direct_and_bounds_witness :
    getDuration probeFail [.idle 7 []] 0 = .ok 7000000000 ∧
    getDuration probeFail [.idle 7 []] 5
      = .error (.indexOutOfBounds 5 1) :=
  ⟨((getDuration_idle_direct_and_bounds probeFail probeFail [.idle 7 []] 0).1
      7 [] (by decide) (by decide)).1,
    (getDuration_idle_direct_and_bounds probeFail probeFail [.idle 7 []] 5).2
      (by decide)⟩

/-- Prepending a non-special character preserves well-escapedness. -/
theorem wellEscaped_cons_of_not_special {c : Char} (hc : isFfmpegSpecial c = false)
    (l : List Char) : wellEscaped (c :: l) = wellEscaped l := by
  have hcb : ¬ (c = bslChar) := by
    intro h
    rw [h] at hc
    simp [isFfmpegSpecial] at hc
  cases l with
  | nil => simp [wellEscaped, hc]
  | cons c2 rest => simp [wellEscaped, hc, hcb]

/-- The replacer escapes every occurrence of every control character. -/
theorem wellEscaped_escape (t : List Char) : wellEscaped (escapeFFmpegText t) = true := by
  induction t with
  | nil => rfl
  | cons c rest ih =>
    by_cases hc : isFfmpegSpecial c = true
    · have h1 : escapeFFmpegText (c :: rest) = bslChar :: c :: escapeFFmpegText rest := by
        simp [escapeFFmpegText, hc]
      rw [h1]
      simp [wellEscaped, hc, ih]
    · have hc2 : isFfmpegSpecial c = false := by simpa using hc
      have h1 : escapeFFmpegText (c :: rest) = c :: escapeFFmpegText rest := by
        simp [escapeFFmpegText, hc2]
      rw [h1, wellEscaped_cons_of_not_special hc2]
      exact ih

/-- Containment survives prepending. -/
theorem containsSeg_append_left {α : Type} (x : List α) {m y : List α}
    (h : containsSeg m y) : containsSeg m (x ++ y) := by
  obtain ⟨s, t, ht⟩ := h
  exact ⟨x ++ s, t, by rw [ht]; simp [List.append_assoc]⟩

/-- Containment survives appending. -/
theorem containsSeg_append_right {α : Type} (z : List α) {m y : List α}
    (h : containsSeg m y) : containsSeg m (y ++ z) := by
  obtain ⟨s, t, ht⟩ := h
  exact ⟨s, t ++ z, by rw [ht]; simp [List.append_assoc]⟩

/-- Counterexample to C5: the video banner label is embedded raw. On the
path `/media/1. a,b` the comma survives unescaped, so the built filter
differs from the escaped embedding the claim requires. -/
theorem banner_label_embedded_unescaped :
    getTextFilter (goStr "/media/1. a,b") ≠ getTextFilterSpec (goStr "/media/1. a,b") := by
  decide

/-- The static tail carries the centered-position marker. -/
theorem staticPosMarker_in_descPostStatic : containsSeg staticPosMarker descPostStatic :=
  ⟨[sqChar] ++ goStr ":fontsize=22:fontcolor=#cccccc:",
   goStr ":box=1:boxcolor=black@0.4:boxborderw=5", by decide⟩

/-- The scrolling tail carries the ticker-position marker. -/
theorem scrollPosMarker_in_descPostScroll : containsSeg scrollPosMarker descPostScroll :=
  ⟨[sqChar] ++ goStr ":fontsize=22:fontcolor=#cccccc:",
   goStr ":box=1:boxcolor=black@0.4:boxborderw=5", by decide⟩

/-- C8: the idle-slate builder renders the description statically (centered
position formula) for every description of length at most 80 and as a
horizontally scrolling ticker (time-driven position formula) for every
longer description, and the built description block is embedded in the
idle-slate video filter. -/
theorem idle_description_threshold (description nextMovie : List Char) (secs : Int) :
    (description.length ≤ 80 → containsSeg staticPosMarker (idleDescFilter description)) ∧
    (80 < description.length → containsSeg scrollPosMarker (idleDescFilter description)) ∧
    containsSeg (idleDescFilter description) (idleVideoFilter nextMovie description secs) := by
  refine ⟨?_, ?_, ?_⟩
  · intro h
    unfold idleDescFilter
    rw [if_pos h]
    obtain ⟨s, t, ht⟩ := staticPosMarker_in_descPostStatic
    exact ⟨descPre ++ escapeFFmpegText description ++ s, t,
           by rw [ht]; simp [List.append_assoc]⟩
  · intro h
    unfold idleDescFilter
    rw [if_neg (by omega)]
    obtain ⟨s, t, ht⟩ := scrollPosMarker_in_descPostScroll
    exact ⟨descPre ++ escapeFFmpegText description ++ s, t,
           by rw [ht]; simp [List.append_assoc]⟩
  · exact ⟨idleHeader ++ escapeFFmpegText nextMovie ++ idleMid,
           idleTail1 ++ itoa secs ++ idleTail2,
           by simp [idleVideoFilter, List.append_assoc]⟩

/-- Witness for C8 at the boundary: an 80-character description is static,
an 81-character description scrolls. -/
theorem idle_description_threshold_witness :
    containsSeg staticPosMarker (idleDescFilter (List.replicate 80 'a')) ∧
    containsSeg scrollPosMarker (idleDescFilter (List.replicate 81 'a')) :=
  ⟨(idle_description_threshold (List.replicate 80 'a') [] 0).1 (by simp),
   (idle_description_threshold (List.replicate 81 'a') [] 0).2.1 (by simp)⟩

/-- C5 (amended): the idle-slate next-movie title and description are
escaped with `escapeFFmpegText` — which backslash-escapes every occurrence
of colon, comma, square brackets, single quote and backslash — before being
embedded in the idle video filter; the video banner label, by contrast, is
embedded by `getTextFilter` without escaping (see
`banner_label_embedded_unescaped`). -/
theorem idle_texts_escaped (nextMovie description t : List Char) (secs : Int) :
    wellEscaped (escapeFFmpegText t) = true ∧
    containsSeg (escapeFFmpegText nextMovie) (idleVideoFilter nextMovie description secs) ∧
    containsSeg (escapeFFmpegText description) (idleVideoFilter nextMovie description secs) := by
  refine ⟨wellEscaped_escape t, ?_, ?_⟩
  · exact ⟨idleHeader,
           idleMid ++ idleDescFilter description ++ idleTail1 ++ itoa secs ++ idleTail2,
           by simp [idleVideoFilter, List.append_assoc]⟩
  · unfold idleVideoFilter idleDescFilter
    split
    · exact ⟨idleHeader ++ escapeFFmpegText nextMovie ++ idleMid ++ descPre,
             descPostStatic ++ idleTail1 ++ itoa secs ++ idleTail2,
             by simp [List.append_assoc]⟩
    · exact ⟨idleHeader ++ escapeFFmpegText nextMovie ++ idleMid ++ descPre,
             descPostScroll ++ idleTail1 ++ itoa secs ++ idleTail2,
             by simp [List.append_assoc]⟩

/-- The clamp never goes negative on a non-empty table. -/
theorem clampQuality_nonneg {len : Nat} (h : 0 < len) (quality : Int) :
    0 ≤ clampQuality len quality := by
  simp only [clampQuality]
  split_ifs <;> omega

/-- The clamp stays below the table length on a non-empty table. -/
theorem clampQuality_lt_int {len : Nat} (h : 0 < len) (quality : Int) :
    clampQuality len quality < (len : Int) := by
  simp only [clampQuality]
  split_ifs <;> omega

/-- C7: for every integer tier index and either aspect-ratio class, the
resolved index is clamped into the table's valid range and the returned
profile is an entry of that table — no out-of-range read is possible. -/
theorem quality_index_clamped (ciccione : Bool) (quality : Int) :
    0 ≤ clampQuality (if ciccione then Qualities43.length else Qualities169.length) quality ∧
    clampQuality (if ciccione then Qualities43.length else Qualities169.length) quality
      < ((if ciccione then Qualities43.length else Qualities169.length : Nat) : Int) ∧
    ffmpegPickQuality ciccione quality ∈ (if ciccione then Qualities43 else Qualities169) := by
  cases ciccione with
  | false =>
    exact ⟨clampQuality_nonneg (by decide) quality,
           clampQuality_lt_int (by decide) quality,
           List.get_mem _ _ _⟩
  | true =>
    exact ⟨clampQuality_nonneg (by decide) quality,
           clampQuality_lt_int (by decide) quality,
           List.get_mem _ _ _⟩

/-- Counterexample to C6 as stated: tier 1 of the 16:9 table (1080p30)
stays on the hardware encoder, yet its argument list does contain the
keyframe-interval and buffer parameters which the claim reserves to the
software path. -/
theorem hardware_path_emits_gop_and_bufsize :
    ffmpegEncoder (ffmpegPickQuality false 1) = goStr "h264_v4l2m2m" ∧
    (goStr "-g") ∈ ffmpegExtra (ffmpegPickQuality false 1) ∧
    (goStr "-bufsize") ∈ ffmpegExtra (ffmpegPickQuality false 1) := by
  decide

/-- C6 (amended): for every aspect-ratio class and integer tier index the
hardware encoder `h264_v4l2m2m` is the default and the software encoder
`libx264` is substituted exactly when the resolved tier has width at least
1920 and frame rate above 30; the preset parameter is emitted exactly on the
software path, while keyframe interval `GOP = 2*fps` and buffer
`bufsize = 2*bitrate` are emitted on both paths. -/
theorem encoder_selection (ciccione : Bool) (quality : Int) :
    (ffmpegEncoder (ffmpegPickQuality ciccione quality) = goStr "libx264"
      ↔ (1920 ≤ (ffmpegPickQuality ciccione quality).width
          ∧ 30 < (ffmpegPickQuality ciccione quality).fps)) ∧
    ((goStr "-preset") ∈ ffmpegExtra (ffmpegPickQuality ciccione quality)
      ↔ ffmpegEncoder (ffmpegPickQuality ciccione quality) = goStr "libx264") ∧
    (goStr "-g") ∈ ffmpegExtra (ffmpegPickQuality ciccione quality) ∧
    itoa ((ffmpegPickQuality ciccione quality).fps * 2)
      ∈ ffmpegExtra (ffmpegPickQuality ciccione quality) ∧
    (goStr "-bufsize") ∈ ffmpegExtra (ffmpegPickQuality ciccione quality) ∧
    (itoa (2 * atoiK (ffmpegPickQuality ciccione quality).vBitrate) ++ goStr "k")
      ∈ ffmpegExtra (ffmpegPickQuality ciccione quality) := by
  generalize hgen : ffmpegPickQuality ciccione quality = q
  have hmem : q ∈ Qualities43 ∨ q ∈ Qualities169 := by
    rw [← hgen]
    unfold ffmpegPickQuality
    split
    · exact Or.inl (List.get_mem _ _ _)
    · exact Or.inr (List.get_mem _ _ _)
  rcases hmem with h | h <;> fin_cases h <;> decide

/-- C10: `getTextFilter` unconditionally slices away the first 10 characters
of its input, so it is only safe when the label has at least 10 characters;
any shorter path with the banner flag set makes the slice panic, which
propagates through `FfmpegCommand`. -/
theorem banner_requires_ten_chars (d : List Char) :
    (d.length < 10 → getTextFilter d = none) ∧
    (10 ≤ d.length → (getTextFilter d).isSome = true) ∧
    (∀ (rtmpURL : List Char) (ciccione : Bool) (quality : Int),
      d.length < 10 → FfmpegCommand d rtmpURL ciccione quality true = none) := by
  refine ⟨?_, ?_, ?_⟩
  · intro h
    unfold getTextFilter
    rw [if_pos h]
  · intro h
    unfold getTextFilter
    rw [if_neg (by omega)]
    rfl
  · intro rtmpURL ciccione quality h
    have h1 : getTextFilter d = none := by
      unfold getTextFilter
      rw [if_pos h]
    simp [FfmpegCommand, h1]

/-- Witness for C10: a 5-character path panics (also through
`FfmpegCommand` with the banner flag), an 11-character path is safe. -/
theorem banner_requires_ten_chars_witness :
    getTextFilter (goStr "short") = none ∧
    (getTextFilter (goStr "/media/1. x")).isSome = true ∧
    FfmpegCommand (goStr "short") (goStr "rtmp://x") false 0 true = none :=
  ⟨(banner_requires_ten_chars (goStr "short")).1 (by decide),
   (banner_requires_ten_chars (goStr "/media/1. x")).2.1 (by decide),
   (banner_requires_ten_chars (goStr "short")).2.2 (goStr "rtmp://x") false 0 (by decide)⟩
